import Mathlib

set_option linter.unusedVariables false

/-!
Shallow embedding of `Contents/Scripts/watched-sync.py` from the
ShokoMetadata.bundle repository.

The script syncs watched states between a Plex server (playback service)
and a Shoko server (metadata service).  We embed the reconciliation logic
as pure functions that produce a trace of `Event`s: every console message,
prompt and remote state-mutation call becomes one trace element.  Remote
services are passed in as functions / response data, mirroring the JSON
shapes the script reads.
-/

/-- The platform the script runs on, fixing `os.path.sep` and which
characters `os.path.basename` treats as separators (`ntpath` also accepts
`/` as an alternative separator). -/
inductive Platform
  | posix
  | windows
  deriving DecidableEq

/-- Characters `os.path.basename` splits on for each platform. -/
def Platform.sepChars : Platform → List Char
  | .posix => ['/']
  | .windows => ['\\', '/']

/-- `os.path.sep` for each platform. -/
def Platform.sep : Platform → String
  | .posix => "/"
  | .windows => "\\"

/-- The substring after the last occurrence of any separator character
(the tail component `os.path.basename` returns). -/
def afterLastSep (seps : List Char) (cs : List Char) : List Char :=
  cs.foldl (fun acc c => if seps.contains c then [] else acc ++ [c]) []

/-- `ntpath.splitdrive`-style drive removal: on Windows a second character
`:` makes the first two characters a drive, which `basename` discards.
On posix nothing is stripped. -/
def stripDrive : Platform → List Char → List Char
  | .windows, _ :: ':' :: rest => rest
  | _, cs => cs

/-- Model of `os.path.basename`: drop the drive (Windows), then keep the
substring after the last path separator. -/
def basename (pf : Platform) (p : String) : String :=
  String.mk (afterLastSep pf.sepChars (stripDrive pf p.data))

/-- The unit suffixes of the relative-date regex: `m|h|d|w|mon|y`. -/
def unitSuffix : List Char → Bool
  | ['m'] => true
  | ['h'] => true
  | ['d'] => true
  | ['w'] => true
  | ['y'] => true
  | ['m', 'o', 'n'] => true
  | _ => false

/-- Core of the relative-date regex
`^(?:[1-9]|[1-9][0-9]|[1-9][0-9][0-9])(?:m|h|d|w|mon|y)$`:
one nonzero digit, up to two further digits, then a unit suffix. -/
def durationCore : List Char → Bool
  | [] => false
  | c :: rest =>
      c.isDigit && c != '0' &&
        (unitSuffix rest ||
          match rest with
          | [] => false
          | d :: rest2 =>
              d.isDigit &&
                (unitSuffix rest2 ||
                  match rest2 with
                  | [] => false
                  | e :: rest3 => e.isDigit && unitSuffix rest3))

/-- `re.match` against the anchored relative-date pattern.  Python's `$`
also matches just before a single trailing newline, which we reproduce. -/
def durationMatch (cs : List Char) : Bool :=
  durationCore cs ||
    (match cs.getLast? with
     | some c => c == '\n' && durationCore cs.dropLast
     | none => false)

/-- Python `str.lower` on the ASCII range (the only case the script's
comparisons depend on), written over the character list so that it
reduces in the kernel. -/
def pyLower (s : String) : String := String.mk (s.data.map Char.toLower)

/-- `arg_parse` from the script: lowercase the argument, then reject it
unless it matches the relative-date regex or equals `import`. -/
def arg_parse (arg : String) : Except String String :=
  let arg := pyLower arg
  if !durationMatch arg.data && arg != "import" then
    Except.error "invalid range or import"
  else
    Except.ok arg

/-- The argparse layer: one optional positional argument with default
`999y`; afterwards the literal `import` result switches the mode flag and
resets the range to `999y`.  Returns `(relative_date, shoko_import)`. -/
def parseArgs : Option String → Except String (String × Bool)
  | none => Except.ok ("999y", false)
  | some a =>
      match arg_parse a with
      | Except.error e => Except.error e
      | Except.ok v =>
          if v == "import" then Except.ok ("999y", true) else Except.ok (v, false)

/-- One file location as returned by the Shoko API (`RelativePath`). -/
structure Location where
  RelativePath : String
  deriving DecidableEq

/-- One file entry of a Shoko episode record (`Locations`). -/
structure ShokoFile where
  Locations : List Location
  deriving DecidableEq

/-- One entry of the Shoko `Episode?includeWatched=only&includeFiles=true`
response list (`Files`). -/
structure ShokoEpisodeRec where
  Files : List ShokoFile
  deriving DecidableEq

/-- One entry of an `EpisodeIDs` list (`ID`). -/
structure EpisodeIDRec where
  ID : Nat
  deriving DecidableEq

/-- One series grouping of a `File/PathEndsWith` result (`EpisodeIDs`). -/
structure SeriesIDsRec where
  EpisodeIDs : List EpisodeIDRec
  deriving DecidableEq

/-- The JSON tri-state of the `Watched` field: `true`, `false` or `null`. -/
inductive TriState
  | wTrue
  | wFalse
  | wNone
  deriving DecidableEq

/-- One result of the Shoko `File/PathEndsWith` query. -/
structure MatchResult where
  Watched : TriState
  SeriesIDs : List SeriesIDsRec
  deriving DecidableEq

/-- One media part of a Plex episode (`episode_path.file`). -/
structure PlexPart where
  file : String
  deriving DecidableEq

/-- One Plex episode: title and its media parts. -/
structure PlexEpisode where
  title : String
  parts : List PlexPart
  deriving DecidableEq

/-- One Plex library section, holding the responses of the two
`searchEpisodes` queries the script issues (the `lastViewedAt` window of
the export query is applied inside the Plex server). -/
structure PlexLibrary where
  watchedEpisodes : List PlexEpisode
  unwatchedEpisodes : List PlexEpisode
  deriving DecidableEq

/-- One observable step of a run: remote queries, prompts, console
messages and state-mutation calls. -/
inductive Event
  | shokoGetWatchedList
  | prompt (account : String)
  | promptRetry (account : String)
  | sectionFailed (account : String) (libraryName : String)
  | plexMarkWatched (account : String) (title : String) (watched : Bool)
  | shokoToPlexLog (account : String) (filepath : String)
  | relaying (filepath : String) (title : String)
  | shokoSetWatched (episodeID : Nat) (watched : Bool)
  | matchFailed (filepath : String)
  | resolveFailed
  deriving DecidableEq

/-- The watched value written by a state-mutation event, `none` for
non-mutating events.  `plexMarkWatched` models `episode.markPlayed()`
(which sets the Plex watched flag) and `shokoSetWatched` models the
`POST Episode/{ID}/Watched/{value}` call. -/
def mutatedValue : Event → Option Bool
  | .plexMarkWatched _ _ v => some v
  | .shokoSetWatched _ v => some v
  | _ => none

/-- A Python list comprehension `[f(u) for u in us]` whose body may raise:
the first failure aborts the whole comprehension (no partial list
survives). -/
def resolveAll (f : String → Option String) : List String → Option (List String)
  | [] => some []
  | u :: rest =>
      match f u with
      | none => none
      | some v =>
          match resolveAll f rest with
          | none => none
          | some vs => some (v :: vs)

/-- Identity resolution (lines 66-74): the admin account is included iff
`SyncAdmin`; the `ExtraUsers` block runs only when the configured list is
truthy, and its two comprehensions (`admin.user` lookups, then the
account-switch token exchanges) sit inside a single `try`, so any failure
reports an error and appends no extra account.  Returns the account list
and whether a resolution error was reported. -/
def resolveAccounts (syncAdmin : Bool) (extraUsers : Option (List String))
    (userLookup : String → Option String) (switchToken : String → Option String)
    (admin : String) : List String × Bool :=
  let base := if syncAdmin then [admin] else []
  match extraUsers with
  | none => (base, false)
  | some us =>
      if us.isEmpty then (base, false)
      else
        match resolveAll userLookup us with
        | none => (base, true)
        | some extra_users =>
            match resolveAll switchToken extra_users with
            | none => (base, true)
            | some tokens => (base ++ tokens, false)

/-- The import-mode precompute (lines 89-94): for each watched Shoko
episode record, the basename of its first file's first location.  The
script indexes `Files[0]` / `Locations[0]` directly; `headD` stands for
that first-element access. -/
def watchedFilenames (pf : Platform) (recs : List ShokoEpisodeRec) : List String :=
  recs.map fun r =>
    basename pf ((r.Files.headD ⟨[]⟩).Locations.headD ⟨""⟩).RelativePath

/-- The confirmation loop (lines 98-106): consume responses until one
lowercases to `y` (proceed, `some true`) or `n` (skip, `some false`);
any other response prints a retry message and loops.  An exhausted input
stream is the uncaught `EOFError` case (`none`), which ends the run. -/
def gate (account : String) : List String → List Event × Option (Bool × List String)
  | [] => ([], none)
  | r :: rest =>
      if pyLower r == "y" then ([Event.prompt account], some (true, rest))
      else if pyLower r == "n" then ([Event.prompt account], some (false, rest))
      else
        (Event.prompt account :: Event.promptRetry account :: (gate account rest).1,
          (gate account rest).2)

/-- Import mode, innermost loop (lines 126-130): for each part of an
unwatched Plex episode, if the part's basename is in the watched-filename
list, call `markPlayed()` and print the `Importing` line. -/
def shokoToPlexParts (pf : Platform) (ws : List String) (account title : String) :
    List PlexPart → List Event
  | [] => []
  | part :: rest =>
      (if ws.contains (basename pf part.file) then
        [Event.plexMarkWatched account title true,
          Event.shokoToPlexLog account (basename pf part.file)]
      else []) ++ shokoToPlexParts pf ws account title rest

/-- Import mode, episode loop (line 125). -/
def shokoToPlexEpisodes (pf : Platform) (ws : List String) (account : String) :
    List PlexEpisode → List Event
  | [] => []
  | ep :: rest =>
      shokoToPlexParts pf ws account ep.title ep.parts ++
        shokoToPlexEpisodes pf ws account rest

/-- Import mode, library loop (lines 115-121): a failed section lookup is
reported and that library skipped. -/
def shokoToPlexLibraries (pf : Platform) (ws : List String) (account : String)
    (sections : String → Option PlexLibrary) : List String → List Event
  | [] => []
  | ln :: rest =>
      (match sections ln with
       | none => [Event.sectionFailed account ln]
       | some lib => shokoToPlexEpisodes pf ws account lib.unwatchedEpisodes) ++
        shokoToPlexLibraries pf ws account sections rest

/-- Import mode, account loop (lines 96-106): the gate runs before any of
the account's data is touched; `n` (SkipUser) continues with the next
account, input exhaustion ends the run. -/
def shokoToPlexAccounts (pf : Platform) (ws : List String) (libs : List String) :
    List (String × (String → Option PlexLibrary)) → List String → List Event
  | [], _ => []
  | (name, sections) :: rest, inputs =>
      (gate name inputs).1 ++
        match (gate name inputs).2 with
        | none => []
        | some (true, inputs') =>
            shokoToPlexLibraries pf ws name sections libs ++
              shokoToPlexAccounts pf ws libs rest inputs'
        | some (false, inputs') => shokoToPlexAccounts pf ws libs rest inputs'

/-- The whole import-mode run (lines 89-130): one Shoko watched-episode
query before the account loop, then the account loop over the precomputed
filename list. -/
def runShokoImport (pf : Platform) (shokoWatched : List ShokoEpisodeRec)
    (libs : List String) (accounts : List (String × (String → Option PlexLibrary)))
    (inputs : List String) : List Event :=
  Event.shokoGetWatchedList ::
    shokoToPlexAccounts pf (watchedFilenames pf shokoWatched) libs accounts inputs

/-- The export-mode match key (line 135): `os.path.sep` plus the basename
of the part's file, "to avoid duplicate matches". -/
def exportKey (pf : Platform) (file : String) : String :=
  pf.sep ++ basename pf file

/-- Export mode, per-location body (lines 135-143): query
`File/PathEndsWith` with the key; inside the `try`, index result `[0]`
(an empty result is the caught `IndexError`, printing the `Failed` line);
if its `Watched` is `null`, print `Relaying` and POST `Watched/true` for
every ID of `SeriesIDs[0].EpisodeIDs` (an empty `SeriesIDs` raises after
the `Relaying` print and is likewise caught). -/
def plexToShokoLocation (pf : Platform) (shoko : String → List MatchResult)
    (title file : String) : List Event :=
  match (shoko (exportKey pf file)).head? with
  | none => [Event.matchFailed (exportKey pf file)]
  | some r =>
      if r.Watched = TriState.wNone then
        Event.relaying (exportKey pf file) title ::
          match r.SeriesIDs.head? with
          | none => [Event.matchFailed (exportKey pf file)]
          | some s => s.EpisodeIDs.map fun eid => Event.shokoSetWatched eid.ID true
      else []

/-- Export mode, part loop (line 134). -/
def plexToShokoParts (pf : Platform) (shoko : String → List MatchResult)
    (title : String) : List PlexPart → List Event
  | [] => []
  | part :: rest =>
      plexToShokoLocation pf shoko title part.file ++
        plexToShokoParts pf shoko title rest

/-- Export mode, episode loop (line 133). -/
def plexToShokoEpisodes (pf : Platform) (shoko : String → List MatchResult) :
    List PlexEpisode → List Event
  | [] => []
  | ep :: rest =>
      plexToShokoParts pf shoko ep.title ep.parts ++
        plexToShokoEpisodes pf shoko rest

/-- Export mode, library loop (lines 115-121). -/
def plexToShokoLibraries (pf : Platform) (shoko : String → List MatchResult)
    (account : String) (sections : String → Option PlexLibrary) :
    List String → List Event
  | [] => []
  | ln :: rest =>
      (match sections ln with
       | none => [Event.sectionFailed account ln]
       | some lib => plexToShokoEpisodes pf shoko lib.watchedEpisodes) ++
        plexToShokoLibraries pf shoko account sections rest

/-- Export mode, account loop (line 96, no gate). -/
def plexToShokoAccounts (pf : Platform) (shoko : String → List MatchResult)
    (libs : List String) : List (String × (String → Option PlexLibrary)) → List Event
  | [] => []
  | (name, sections) :: rest =>
      plexToShokoLibraries pf shoko name sections libs ++
        plexToShokoAccounts pf shoko libs rest

/-- The whole export-mode run. -/
def runPlexExport (pf : Platform) (shoko : String → List MatchResult)
    (libs : List String) (accounts : List (String × (String → Option PlexLibrary))) :
    List Event :=
  plexToShokoAccounts pf shoko libs accounts

/-- The external data and configuration a run consumes: config values,
the remote services' responses and the interactive input stream. -/
structure Env where
  admin : String
  syncAdmin : Bool
  extraUsers : Option (List String)
  libraryNames : List String
  userLookup : String → Option String
  switchToken : String → Option String
  sections : String → String → Option PlexLibrary
  shoko : String → List MatchResult
  shokoWatched : List ShokoEpisodeRec
  inputs : List String
  platform : Platform

/-- The script end to end: argument validation (argparse exits with
status 2 before anything else on a bad argument), identity resolution,
then one of the two mode runs.  Returns the exit status and the trace. -/
def program (arg : Option String) (env : Env) : Nat × List Event :=
  match parseArgs arg with
  | Except.error _ => (2, [])
  | Except.ok (_, shokoImport) =>
      let res := resolveAccounts env.syncAdmin env.extraUsers env.userLookup
        env.switchToken env.admin
      let idents := res.1.map fun a => (a, env.sections a)
      let trace :=
        (if res.2 then [Event.resolveFailed] else []) ++
          (if shokoImport then
            runShokoImport env.platform env.shokoWatched env.libraryNames idents env.inputs
          else
            runPlexExport env.platform env.shoko env.libraryNames idents)
      (0, trace)

/-- Does the first list start with the second list? -/
def charsStartWith : List Char → List Char → Bool
  | _, [] => true
  | [], _ :: _ => false
  | a :: as, b :: bs => a == b && charsStartWith as bs

/-- Modelled from the spec: the metadata service's suffix query
(`File/PathEndsWith`), whose implementation is not part of this
repository, returns "files whose stored path ends with suffixKey" —
a literal string suffix comparison of the stored path against the key. -/
def pathEndsWithMatches (stored key : String) : Bool :=
  charsStartWith stored.data.reverse key.data.reverse

/-- A Shoko file index under the spec-modelled suffix query: the results
for a key are the records of all stored paths ending with the key. -/
def shokoIndex (files : List (String × MatchResult)) : String → List MatchResult :=
  fun key => (files.filter fun f => pathEndsWithMatches f.1 key).map Prod.snd

/-! ### Helper lemmas -/

theorem charsStartWith_append (l t : List Char) : charsStartWith (l ++ t) l = true := by
  induction l with
  | nil => cases t <;> rfl
  | cons a as ih => simp [charsStartWith, ih]

theorem pathEndsWithMatches_append (p k : String) :
    pathEndsWithMatches (p ++ k) k = true := by
  unfold pathEndsWithMatches
  rw [String.data_append, List.reverse_append]
  exact charsStartWith_append _ _

theorem resolveAll_none_of_mem (f : String → Option String) (l : List String)
    (u : String) (hu : u ∈ l) (hf : f u = none) : resolveAll f l = none := by
  induction l with
  | nil => cases hu
  | cons a as ih =>
      rcases List.mem_cons.mp hu with h | h
      · subst h; simp [resolveAll, hf]
      · unfold resolveAll
        rcases hfa : f a with _ | v
        · rfl
        · rw [ih h]

/-! ### C7: export match key -/

/-- C7 counterexample: the key computed on a Windows host for playback
location `D:\anime\Show\S01E01.mkv` is `\S01E01.mkv`, and under the
spec's literal suffix-match contract it does NOT match the metadata path
`/mnt/media/Show/S01E01.mkv` (the final separator differs), so the
engine reports the location as unmatched instead of relaying it. -/
theorem match_key_cross_separator_cex :
    exportKey Platform.windows "D:\\anime\\Show\\S01E01.mkv" = "\\S01E01.mkv" ∧
    pathEndsWithMatches "/mnt/media/Show/S01E01.mkv" "\\S01E01.mkv" = false ∧
    plexToShokoLocation Platform.windows
      (shokoIndex [("/mnt/media/Show/S01E01.mkv",
        { Watched := TriState.wNone, SeriesIDs := [{ EpisodeIDs := [{ ID := 1 }] }] })])
      "Show" "D:\\anime\\Show\\S01E01.mkv" =
      [Event.matchFailed "\\S01E01.mkv"] := by
  refine ⟨by decide, by decide, by decide⟩

/-- C7 amended: the export-mode match key of a file path is its final
path component prefixed with one platform path-separator character; the
key matches any metadata path ending with the same separator-plus-filename
regardless of the path before it (so differing roots are tolerated), but
the final separator itself must agree: the Windows-computed key
`\S01E01.mkv` matches `E:\media\Show\S01E01.mkv`, not the `/`-separated
`/mnt/media/Show/S01E01.mkv`. -/
theorem match_key_suffix_tolerant :
    exportKey Platform.windows "D:\\anime\\Show\\S01E01.mkv" = "\\S01E01.mkv" ∧
    (∀ root : String, pathEndsWithMatches (root ++ "\\S01E01.mkv") "\\S01E01.mkv" = true) ∧
    pathEndsWithMatches "E:\\media\\Show\\S01E01.mkv" "\\S01E01.mkv" = true := by
  refine ⟨by decide, fun root => pathEndsWithMatches_append root _, by decide⟩

/-! ### C9: CLI argument validation -/

/-- C9 counterexample: the script lowercases the argument before testing
it, so `2W` and `IMPORT` are accepted even though neither matches the
case-sensitive regex `^[1-9][0-9]{0,2}(m|h|d|w|mon|y)$` nor equals the
literal token `import`. -/
theorem cli_arg_case_insensitive_cex :
    parseArgs (some "2W") = Except.ok ("2w", false) ∧
    durationMatch "2W".data = false ∧ "2W" ≠ "import" ∧
    parseArgs (some "IMPORT") = Except.ok ("999y", true) ∧ "IMPORT" ≠ "import" := by
  refine ⟨rfl, by decide, by decide, rfl, by decide⟩

/-- C9 amended: the single optional CLI argument is accepted if and only
if its lowercased form matches `^[1-9][0-9]{0,2}(m|h|d|w|mon|y)$` or is
the literal token `import`; an absent argument defaults to export mode
with the unbounded `999y` window; any other argument is a configuration
error: the program exits with a non-zero status and an empty trace (no
network call is made). -/
theorem cli_arg_acceptance (a : String) :
    ((∃ v, parseArgs (some a) = Except.ok v) ↔
      (durationMatch (pyLower a).data = true ∨ pyLower a = "import")) ∧
    parseArgs none = Except.ok ("999y", false) ∧
    (∀ env : Env, (∀ v, parseArgs (some a) ≠ Except.ok v) →
      program (some a) env = (2, []) ∧ (program (some a) env).1 ≠ 0) := by
  refine ⟨?_, rfl, ?_⟩
  · by_cases hdm : durationMatch (pyLower a).data = true <;>
      by_cases him : pyLower a = "import" <;>
        simp [parseArgs, arg_parse, hdm, him]
  · intro env hfail
    rcases hp : parseArgs (some a) with e | v
    · constructor
      · simp [program, hp]
      · simp [program, hp]
    · exact absurd hp (hfail v)

/-! ### C5: delegated identity resolution -/

/-- C5 counterexample: with delegated users `alice` and `bob` where only
`alice` fails to resolve, `bob` is also omitted from the run (the whole
comprehension sits in one `try`), in either order — contradicting the
claim that only the failing identity is omitted and the remaining
delegated identities are still processed. -/
theorem resolve_failure_drops_all_extras_cex :
    resolveAccounts true (some ["alice", "bob"])
      (fun u => if u == "alice" then none else some u)
      (fun t => some (t ++ "tok")) "admin" = (["admin"], true) ∧
    resolveAccounts true (some ["bob", "alice"])
      (fun u => if u == "alice" then none else some u)
      (fun t => some (t ++ "tok")) "admin" = (["admin"], true) ∧
    "bobtok" ∉ (resolveAccounts true (some ["alice", "bob"])
      (fun u => if u == "alice" then none else some u)
      (fun t => some (t ++ "tok")) "admin").1 := by
  refine ⟨by decide, by decide, by decide⟩

/-- C5 amended: a failure to resolve any delegated identity is caught and
reported without aborting the run, but it aborts the resolution of all
delegated identities: every delegated identity is omitted from that run
and only the primary identity (when its flag is enabled) is still
processed. -/
theorem resolve_failure_keeps_primary (syncAdmin : Bool) (extras : List String)
    (userLookup switchToken : String → Option String) (admin u : String)
    (hu : u ∈ extras) (hf : userLookup u = none) :
    resolveAccounts syncAdmin (some extras) userLookup switchToken admin =
      ((if syncAdmin then [admin] else []), true) := by
  have hne : extras.isEmpty = false := by
    cases extras with
    | nil => cases hu
    | cons a as => rfl
  simp only [resolveAccounts, hne, resolveAll_none_of_mem userLookup extras u hu hf,
    Bool.false_eq_true, if_false]

/-- Witness for `resolve_failure_keeps_primary` at a concrete
configuration. -/
theorem resolve_failure_keeps_primary_witness :
    resolveAccounts true (some ["alice", "bob"]) (fun _ => none)
      (fun t => some t) "admin" = (["admin"], true) :=
  resolve_failure_keeps_primary true ["alice", "bob"] (fun _ => none)
    (fun t => some t) "admin" "alice" (by decide) rfl

/-! ### C2: which episode IDs are marked in export mode -/

/-- C2 counterexample: a matched file with unknown watched state whose
match carries two series groupings (episode IDs 1 and 2).  Only episode
ID 1 — from `SeriesIDs[0]` — is marked; the POST for episode ID 2 is
never issued, contradicting "all series groupings are marked". -/
theorem export_marks_only_first_grouping_cex :
    plexToShokoLocation Platform.posix
      (fun _ => [{ Watched := TriState.wNone,
                   SeriesIDs := [{ EpisodeIDs := [{ ID := 1 }] },
                                 { EpisodeIDs := [{ ID := 2 }] }] }])
      "T" "/a/b.mkv" =
      [Event.relaying "/b.mkv" "T", Event.shokoSetWatched 1 true] ∧
    Event.shokoSetWatched 2 true ∉
      plexToShokoLocation Platform.posix
        (fun _ => [{ Watched := TriState.wNone,
                     SeriesIDs := [{ EpisodeIDs := [{ ID := 1 }] },
                                   { EpisodeIDs := [{ ID := 2 }] }] }])
        "T" "/a/b.mkv" := by
  refine ⟨by decide, by decide⟩

/-- C2 amended: in export mode, for every playback file location whose
suffix query succeeds with watched tri-state unknown, the engine marks
watched=true for every canonical episode ID in the FIRST series grouping
of the FIRST match result; episode IDs under any further series
groupings (or further match results) are not marked. -/
theorem export_marks_first_grouping (pf : Platform)
    (shoko : String → List MatchResult) (title file : String)
    (r : MatchResult) (s : SeriesIDsRec)
    (h1 : (shoko (exportKey pf file)).head? = some r)
    (h2 : r.Watched = TriState.wNone)
    (h3 : r.SeriesIDs.head? = some s) :
    plexToShokoLocation pf shoko title file =
      Event.relaying (exportKey pf file) title ::
        s.EpisodeIDs.map (fun eid => Event.shokoSetWatched eid.ID true) := by
  simp only [plexToShokoLocation, h1, h2, h3, if_pos]

/-- Witness for `export_marks_first_grouping` at a concrete match. -/
theorem export_marks_first_grouping_witness :
    plexToShokoLocation Platform.posix
      (fun _ => [{ Watched := TriState.wNone,
                   SeriesIDs := [{ EpisodeIDs := [{ ID := 5 }, { ID := 6 }] }] }])
      "T" "/a/b.mkv" =
      [Event.relaying "/b.mkv" "T", Event.shokoSetWatched 5 true,
        Event.shokoSetWatched 6 true] := by
  have h := export_marks_first_grouping Platform.posix
    (fun _ => [{ Watched := TriState.wNone,
                 SeriesIDs := [{ EpisodeIDs := [{ ID := 5 }, { ID := 6 }] }] }])
    "T" "/a/b.mkv"
    { Watched := TriState.wNone,
      SeriesIDs := [{ EpisodeIDs := [{ ID := 5 }, { ID := 6 }] }] }
    { EpisodeIDs := [{ ID := 5 }, { ID := 6 }] } rfl rfl rfl
  rw [h]
  rfl

/-! ### C3: tri-state gate in export mode -/

/-- C3: for a matched file (the suffix query returned a first result),
a state-mutation call is issued iff the result's watched tri-state is
unknown (`null`); when it is already true or explicitly false the engine
emits nothing at all for that location — no mutation and no error. -/
theorem export_mutates_iff_unknown (pf : Platform)
    (shoko : String → List MatchResult) (title file : String) (r : MatchResult)
    (h1 : (shoko (exportKey pf file)).head? = some r) :
    (r.Watched ≠ TriState.wNone → plexToShokoLocation pf shoko title file = []) ∧
    (∀ s, r.SeriesIDs.head? = some s → s.EpisodeIDs ≠ [] →
      ((∃ e ∈ plexToShokoLocation pf shoko title file, (mutatedValue e).isSome = true) ↔
        r.Watched = TriState.wNone)) := by
  constructor
  · intro hw
    simp only [plexToShokoLocation, h1]
    rw [if_neg hw]
  · intro s hs hne
    constructor
    · rintro ⟨e, he, hm⟩
      by_contra hw
      have hz : plexToShokoLocation pf shoko title file = [] := by
        simp only [plexToShokoLocation, h1]
        rw [if_neg hw]
      rw [hz] at he
      cases he
    · intro hw
      cases hEp : s.EpisodeIDs with
      | nil => exact absurd hEp hne
      | cons eid rest =>
          refine ⟨Event.shokoSetWatched eid.ID true, ?_, rfl⟩
          rw [export_marks_first_grouping pf shoko title file r s h1 hw hs]
          rw [hEp]
          exact List.mem_cons_of_mem _ (List.mem_cons_self _ _)

/-- Witness for `export_mutates_iff_unknown`: a matched file whose
tri-state is already true produces no events at all. -/
theorem export_mutates_iff_unknown_witness :
    plexToShokoLocation Platform.posix
      (fun _ => [{ Watched := TriState.wTrue,
                   SeriesIDs := [{ EpisodeIDs := [{ ID := 3 }] }] }])
      "T" "/a/b.mkv" = [] :=
  (export_mutates_iff_unknown Platform.posix
    (fun _ => [{ Watched := TriState.wTrue,
                 SeriesIDs := [{ EpisodeIDs := [{ ID := 3 }] }] }])
    "T" "/a/b.mkv"
    { Watched := TriState.wTrue, SeriesIDs := [{ EpisodeIDs := [{ ID := 3 }] }] }
    rfl).1 (by decide)

/-! ### C8: per-item failure isolation in export mode -/

theorem plexToShokoEpisodes_append (pf : Platform)
    (shoko : String → List MatchResult) (l1 l2 : List PlexEpisode) :
    plexToShokoEpisodes pf shoko (l1 ++ l2) =
      plexToShokoEpisodes pf shoko l1 ++ plexToShokoEpisodes pf shoko l2 := by
  induction l1 with
  | nil => rfl
  | cons ep rest ih => simp [plexToShokoEpisodes, ih]

theorem plexToShokoParts_unmatched (pf : Platform)
    (shoko : String → List MatchResult) (title : String) (parts : List PlexPart)
    (h : ∀ part ∈ parts, shoko (exportKey pf part.file) = []) :
    plexToShokoParts pf shoko title parts =
      parts.map fun p => Event.matchFailed (exportKey pf p.file) := by
  induction parts with
  | nil => rfl
  | cons part rest ih =>
      have hp := h part (List.mem_cons_self _ _)
      have hr := ih fun q hq => h q (List.mem_cons_of_mem _ hq)
      simp only [plexToShokoParts, plexToShokoLocation, hp, List.head?_nil, List.map_cons, hr]
      rfl

/-- C8: per-item failure isolation in export mode.  If every location of
one record fails to match (the suffix query returns no results), that
record contributes exactly one reported `Failed` line per location, and
the records before and after it are still processed exactly as they
would have been: the library loop completes. -/
theorem export_per_item_isolation (pf : Platform)
    (shoko : String → List MatchResult) (pre post : List PlexEpisode)
    (bad : PlexEpisode)
    (h : ∀ part ∈ bad.parts, shoko (exportKey pf part.file) = []) :
    plexToShokoEpisodes pf shoko (pre ++ bad :: post) =
      plexToShokoEpisodes pf shoko pre ++
        (bad.parts.map fun p => Event.matchFailed (exportKey pf p.file)) ++
        plexToShokoEpisodes pf shoko post ∧
    ∀ part ∈ bad.parts,
      Event.matchFailed (exportKey pf part.file) ∈
        plexToShokoEpisodes pf shoko (pre ++ bad :: post) := by
  have key : plexToShokoEpisodes pf shoko (pre ++ bad :: post) =
      plexToShokoEpisodes pf shoko pre ++
        (bad.parts.map fun p => Event.matchFailed (exportKey pf p.file)) ++
        plexToShokoEpisodes pf shoko post := by
    rw [plexToShokoEpisodes_append]
    have : plexToShokoEpisodes pf shoko (bad :: post) =
        plexToShokoParts pf shoko bad.title bad.parts ++
          plexToShokoEpisodes pf shoko post := rfl
    rw [this, plexToShokoParts_unmatched pf shoko bad.title bad.parts h,
      List.append_assoc]
  refine ⟨key, fun part hp => ?_⟩
  rw [key]
  refine List.mem_append_left _ (List.mem_append_right _ ?_)
  exact List.mem_map_of_mem _ hp

/-- Witness for `export_per_item_isolation`: a library of three records
where record 2 has no match; records 1 and 3 are still relayed and the
failure is reported in between. -/
theorem export_per_item_isolation_witness :
    plexToShokoEpisodes Platform.posix
      (fun k => if k == "/b.mkv" then []
        else [{ Watched := TriState.wNone,
                SeriesIDs := [{ EpisodeIDs := [{ ID := 7 }] }] }])
      [{ title := "A", parts := [{ file := "/x/a.mkv" }] },
       { title := "B", parts := [{ file := "/x/b.mkv" }] },
       { title := "C", parts := [{ file := "/x/c.mkv" }] }] =
      [Event.relaying "/a.mkv" "A", Event.shokoSetWatched 7 true,
       Event.matchFailed "/b.mkv",
       Event.relaying "/c.mkv" "C", Event.shokoSetWatched 7 true] := by
  have h := export_per_item_isolation Platform.posix
    (fun k => if k == "/b.mkv" then []
      else [{ Watched := TriState.wNone,
              SeriesIDs := [{ EpisodeIDs := [{ ID := 7 }] }] }])
    [{ title := "A", parts := [{ file := "/x/a.mkv" }] }]
    [{ title := "C", parts := [{ file := "/x/c.mkv" }] }]
    { title := "B", parts := [{ file := "/x/b.mkv" }] }
    (by intro part hp; rcases List.mem_singleton.mp hp with rfl; rfl)
  rw [show ([{ title := "A", parts := [{ file := "/x/a.mkv" }] },
       { title := "B", parts := [{ file := "/x/b.mkv" }] },
       { title := "C", parts := [{ file := "/x/c.mkv" }] }] : List PlexEpisode) =
      [{ title := "A", parts := [{ file := "/x/a.mkv" }] }] ++
        { title := "B", parts := [{ file := "/x/b.mkv" }] } ::
          [{ title := "C", parts := [{ file := "/x/c.mkv" }] }] from rfl, h.1]
  rfl

/-! ### Event-shape lemmas for the two runs -/

/-- The events one import-mode account iteration can produce, all tagged
with that account's name. -/
def accountScopedEvent (name : String) (e : Event) : Prop :=
  e = Event.prompt name ∨ e = Event.promptRetry name ∨
    (∃ ln, e = Event.sectionFailed name ln) ∨
    (∃ t, e = Event.plexMarkWatched name t true) ∨
    (∃ fp, e = Event.shokoToPlexLog name fp)

theorem gate_scoped (acc : String) (inputs : List String) :
    ∀ e ∈ (gate acc inputs).1, accountScopedEvent acc e := by
  induction inputs with
  | nil => intro e he; cases he
  | cons r rest ih =>
      intro e he
      unfold gate at he
      by_cases hy : (pyLower r == "y") = true
      · rw [if_pos hy] at he
        rcases List.mem_singleton.mp he with rfl
        exact Or.inl rfl
      · rw [if_neg hy] at he
        by_cases hn : (pyLower r == "n") = true
        · rw [if_pos hn] at he
          rcases List.mem_singleton.mp he with rfl
          exact Or.inl rfl
        · rw [if_neg hn] at he
          rcases List.mem_cons.mp he with rfl | he
          · exact Or.inl rfl
          · rcases List.mem_cons.mp he with rfl | he
            · exact Or.inr (Or.inl rfl)
            · exact ih e he

theorem shokoToPlexParts_scoped (pf : Platform) (ws : List String)
    (name title : String) (parts : List PlexPart) :
    ∀ e ∈ shokoToPlexParts pf ws name title parts, accountScopedEvent name e := by
  induction parts with
  | nil => intro e he; cases he
  | cons part rest ih =>
      intro e he
      unfold shokoToPlexParts at he
      rcases List.mem_append.mp he with he | he
      · by_cases hc : ws.contains (basename pf part.file) = true
        · rw [if_pos hc] at he
          rcases List.mem_cons.mp he with rfl | he
          · exact Or.inr (Or.inr (Or.inr (Or.inl ⟨title, rfl⟩)))
          · rcases List.mem_singleton.mp he with rfl
            exact Or.inr (Or.inr (Or.inr (Or.inr ⟨_, rfl⟩)))
        · rw [if_neg hc] at he
          cases he
      · exact ih e he

theorem shokoToPlexEpisodes_scoped (pf : Platform) (ws : List String)
    (name : String) (eps : List PlexEpisode) :
    ∀ e ∈ shokoToPlexEpisodes pf ws name eps, accountScopedEvent name e := by
  induction eps with
  | nil => intro e he; cases he
  | cons ep rest ih =>
      intro e he
      rcases List.mem_append.mp he with he | he
      · exact shokoToPlexParts_scoped pf ws name ep.title ep.parts e he
      · exact ih e he

theorem shokoToPlexLibraries_scoped (pf : Platform) (ws : List String)
    (name : String) (sections : String → Option PlexLibrary) (libs : List String) :
    ∀ e ∈ shokoToPlexLibraries pf ws name sections libs, accountScopedEvent name e := by
  induction libs with
  | nil => intro e he; cases he
  | cons ln rest ih =>
      intro e he
      rcases List.mem_append.mp he with he | he
      · rcases hs : sections ln with _ | lib
        · rw [hs] at he
          rcases List.mem_singleton.mp he with rfl
          exact Or.inr (Or.inr (Or.inl ⟨ln, rfl⟩))
        · rw [hs] at he
          exact shokoToPlexEpisodes_scoped pf ws name lib.unwatchedEpisodes e he
      · exact ih e he

theorem shokoToPlexAccounts_scoped (pf : Platform) (ws : List String)
    (libs : List String) :
    ∀ (accounts : List (String × (String → Option PlexLibrary)))
      (inputs : List String),
      ∀ e ∈ shokoToPlexAccounts pf ws libs accounts inputs,
        ∃ p ∈ accounts, accountScopedEvent p.1 e := by
  intro accounts
  induction accounts with
  | nil => intro inputs e he; cases he
  | cons a rest ih =>
      intro inputs e he
      rcases a with ⟨name, sections⟩
      unfold shokoToPlexAccounts at he
      rcases List.mem_append.mp he with he | he
      · exact ⟨(name, sections), List.mem_cons_self _ _, gate_scoped name inputs e he⟩
      · rcases hg : (gate name inputs).2 with _ | ⟨b, inputs'⟩
        · rw [hg] at he; cases he
        · rw [hg] at he
          cases b
          · rcases ih inputs' e he with ⟨p, hp, hpe⟩
            exact ⟨p, List.mem_cons_of_mem _ hp, hpe⟩
          · rcases List.mem_append.mp he with he | he
            · exact ⟨(name, sections), List.mem_cons_self _ _,
                shokoToPlexLibraries_scoped pf ws name sections libs e he⟩
            · rcases ih inputs' e he with ⟨p, hp, hpe⟩
              exact ⟨p, List.mem_cons_of_mem _ hp, hpe⟩

/-- The events export mode can produce; every Shoko write carries `true`. -/
def exportEvent (e : Event) : Prop :=
  (∃ fp, e = Event.matchFailed fp) ∨ (∃ fp t, e = Event.relaying fp t) ∨
    (∃ i, e = Event.shokoSetWatched i true) ∨
    (∃ a ln, e = Event.sectionFailed a ln)

theorem plexToShokoLocation_shape (pf : Platform)
    (shoko : String → List MatchResult) (title file : String) :
    ∀ e ∈ plexToShokoLocation pf shoko title file, exportEvent e := by
  intro e he
  unfold plexToShokoLocation at he
  revert he
  split
  · intro he
    rcases List.mem_singleton.mp he with rfl
    exact Or.inl ⟨_, rfl⟩
  · rename_i r heq
    by_cases hw : r.Watched = TriState.wNone
    · rw [if_pos hw]
      intro he
      rcases List.mem_cons.mp he with rfl | he
      · exact Or.inr (Or.inl ⟨_, _, rfl⟩)
      · revert he
        split
        · intro he
          rcases List.mem_singleton.mp he with rfl
          exact Or.inl ⟨_, rfl⟩
        · intro he
          rcases List.mem_map.mp he with ⟨eid, _, rfl⟩
          exact Or.inr (Or.inr (Or.inl ⟨_, rfl⟩))
    · rw [if_neg hw]
      intro he
      cases he

theorem plexToShokoParts_shape (pf : Platform)
    (shoko : String → List MatchResult) (title : String) (parts : List PlexPart) :
    ∀ e ∈ plexToShokoParts pf shoko title parts, exportEvent e := by
  induction parts with
  | nil => intro e he; cases he
  | cons part rest ih =>
      intro e he
      rcases List.mem_append.mp he with he | he
      · exact plexToShokoLocation_shape pf shoko title part.file e he
      · exact ih e he

theorem plexToShokoEpisodes_shape (pf : Platform)
    (shoko : String → List MatchResult) (eps : List PlexEpisode) :
    ∀ e ∈ plexToShokoEpisodes pf shoko eps, exportEvent e := by
  induction eps with
  | nil => intro e he; cases he
  | cons ep rest ih =>
      intro e he
      rcases List.mem_append.mp he with he | he
      · exact plexToShokoParts_shape pf shoko ep.title ep.parts e he
      · exact ih e he

theorem plexToShokoLibraries_shape (pf : Platform)
    (shoko : String → List MatchResult) (name : String)
    (sections : String → Option PlexLibrary) (libs : List String) :
    ∀ e ∈ plexToShokoLibraries pf shoko name sections libs, exportEvent e := by
  induction libs with
  | nil => intro e he; cases he
  | cons ln rest ih =>
      intro e he
      rcases List.mem_append.mp he with he | he
      · rcases hs : sections ln with _ | lib
        · rw [hs] at he
          rcases List.mem_singleton.mp he with rfl
          exact Or.inr (Or.inr (Or.inr ⟨_, _, rfl⟩))
        · rw [hs] at he
          exact plexToShokoEpisodes_shape pf shoko lib.watchedEpisodes e he
      · exact ih e he

theorem plexToShokoAccounts_shape (pf : Platform)
    (shoko : String → List MatchResult) (libs : List String)
    (accounts : List (String × (String → Option PlexLibrary))) :
    ∀ e ∈ plexToShokoAccounts pf shoko libs accounts, exportEvent e := by
  induction accounts with
  | nil => intro e he; cases he
  | cons a rest ih =>
      intro e he
      rcases a with ⟨name, sections⟩
      rcases List.mem_append.mp he with he | he
      · exact plexToShokoLibraries_shape pf shoko name sections libs e he
      · exact ih e he

/-! ### Gate equations -/

theorem gate_yes (acc r : String) (rest : List String) (h : pyLower r = "y") :
    gate acc (r :: rest) = ([Event.prompt acc], some (true, rest)) := by
  unfold gate
  rw [if_pos (by simp [h])]

theorem gate_no (acc r : String) (rest : List String) (h : pyLower r = "n") :
    gate acc (r :: rest) = ([Event.prompt acc], some (false, rest)) := by
  unfold gate
  rw [if_neg (by simp [h]), if_pos (by simp [h])]

theorem gate_invalid (acc r : String) (rest : List String)
    (h1 : pyLower r ≠ "y") (h2 : pyLower r ≠ "n") :
    gate acc (r :: rest) =
      (Event.prompt acc :: Event.promptRetry acc :: (gate acc rest).1,
        (gate acc rest).2) := by
  conv_lhs => unfold gate
  rw [if_neg (by simp [h1]), if_neg (by simp [h2])]

/-! ### C10: case-insensitive confirmation prompt -/

/-- C10: the confirmation gate lowercases the response before comparing:
`Y` and `y` proceed, `N` and `n` skip the identity, and any other
response — the empty string included — re-prompts without deciding. -/
theorem gate_case_insensitive (name : String) (rest : List String) :
    gate name ("Y" :: rest) = ([Event.prompt name], some (true, rest)) ∧
    gate name ("y" :: rest) = ([Event.prompt name], some (true, rest)) ∧
    gate name ("N" :: rest) = ([Event.prompt name], some (false, rest)) ∧
    gate name ("n" :: rest) = ([Event.prompt name], some (false, rest)) ∧
    gate name ("" :: rest) =
      (Event.prompt name :: Event.promptRetry name :: (gate name rest).1,
        (gate name rest).2) ∧
    (∀ s, pyLower s ≠ "y" → pyLower s ≠ "n" →
      gate name (s :: rest) =
        (Event.prompt name :: Event.promptRetry name :: (gate name rest).1,
          (gate name rest).2)) := by
  refine ⟨gate_yes name "Y" rest (by decide), gate_yes name "y" rest (by decide),
    gate_no name "N" rest (by decide), gate_no name "n" rest (by decide),
    gate_invalid name "" rest (by decide) (by decide),
    fun s hs1 hs2 => gate_invalid name s rest hs1 hs2⟩

/-- Witness for `gate_case_insensitive`: a concrete invalid response
`maybe` re-prompts and leaves the decision to the following `n`. -/
theorem gate_case_insensitive_witness :
    gate "u" ["maybe", "n"] =
      (Event.prompt "u" :: Event.promptRetry "u" :: (gate "u" ["n"]).1,
        (gate "u" ["n"]).2) :=
  (gate_case_insensitive "u" ["n"]).2.2.2.2.2 "maybe" (by decide) (by decide)

/-! ### C4: the confirmation gate protects each identity -/

/-- C4: for each identity the gate prompts before any of that identity's
data is mutated and loops until a valid yes/no arrives (invalid
responses never change the decision); with responses `["n", "y"]` for
two configured identities, the whole import trace is the two prompts
followed by exactly the second identity's library processing — every
mutation event in it is tagged with the second identity. -/
theorem confirmation_gate_skips_identity (pf : Platform) (ws libs : List String)
    (na nb : String) (sa sb : String → Option PlexLibrary) :
    shokoToPlexAccounts pf ws libs [(na, sa), (nb, sb)] ["n", "y"] =
      Event.prompt na :: Event.prompt nb ::
        shokoToPlexLibraries pf ws nb sb libs ∧
    (∀ e ∈ shokoToPlexAccounts pf ws libs [(na, sa), (nb, sb)] ["n", "y"],
      ∀ a t v, e = Event.plexMarkWatched a t v → a = nb) ∧
    (∀ name junk rest, (∀ j ∈ junk, pyLower j ≠ "y" ∧ pyLower j ≠ "n") →
      (gate name (junk ++ rest)).2 = (gate name rest).2) := by
  have h1 : gate na ["n", "y"] = ([Event.prompt na], some (false, ["y"])) :=
    gate_no na "n" ["y"] (by decide)
  have h2 : gate nb ["y"] = ([Event.prompt nb], some (true, [])) :=
    gate_yes nb "y" [] (by decide)
  have key : shokoToPlexAccounts pf ws libs [(na, sa), (nb, sb)] ["n", "y"] =
      Event.prompt na :: Event.prompt nb ::
        shokoToPlexLibraries pf ws nb sb libs := by
    simp [shokoToPlexAccounts, h1, h2]
  refine ⟨key, ?_, ?_⟩
  · intro e he a t v hv
    rw [key] at he
    rcases List.mem_cons.mp he with rfl | he
    · simp at hv
    · rcases List.mem_cons.mp he with rfl | he
      · simp at hv
      · have hsc := shokoToPlexLibraries_scoped pf ws nb sb libs e he
        rcases hsc with rfl | rfl | ⟨ln, rfl⟩ | ⟨t2, rfl⟩ | ⟨fp, rfl⟩
        · simp at hv
        · simp at hv
        · simp at hv
        · simp at hv
          exact hv.1.symm
        · simp at hv
  · intro name junk
    induction junk with
    | nil => intro rest h; rfl
    | cons j rest2 ih =>
        intro rest h
        have hj := h j (List.mem_cons_self _ _)
        rw [List.cons_append, gate_invalid name j (rest2 ++ rest) hj.1 hj.2]
        exact ih rest fun q hq => h q (List.mem_cons_of_mem _ hq)

/-- Witness for `confirmation_gate_skips_identity` at concrete
identities and library data: identity `one` is skipped, identity `two`
is processed. -/
theorem confirmation_gate_skips_identity_witness :
    shokoToPlexAccounts Platform.posix ["a.mkv"] ["L"]
      [("one", fun _ => some { watchedEpisodes := [], unwatchedEpisodes := [{ title := "A", parts := [{ file := "/x/a.mkv" }] }] }),
       ("two", fun _ => some { watchedEpisodes := [], unwatchedEpisodes := [{ title := "A", parts := [{ file := "/x/a.mkv" }] }] })]
      ["n", "y"] =
      Event.prompt "one" :: Event.prompt "two" ::
        shokoToPlexLibraries Platform.posix ["a.mkv"] "two"
          (fun _ => some { watchedEpisodes := [], unwatchedEpisodes := [{ title := "A", parts := [{ file := "/x/a.mkv" }] }] })
          ["L"] :=
  (confirmation_gate_skips_identity Platform.posix ["a.mkv"] ["L"] "one" "two"
    (fun _ => some { watchedEpisodes := [], unwatchedEpisodes := [{ title := "A", parts := [{ file := "/x/a.mkv" }] }] })
    (fun _ => some { watchedEpisodes := [], unwatchedEpisodes := [{ title := "A", parts := [{ file := "/x/a.mkv" }] }] })).1

/-! ### C6: import-mode watched-filename set -/

theorem shokoToPlexParts_marks (pf : Platform) (ws : List String)
    (account title : String) (parts : List PlexPart) (part : PlexPart)
    (hp : part ∈ parts) (hc : ws.contains (basename pf part.file) = true) :
    Event.plexMarkWatched account title true ∈
      shokoToPlexParts pf ws account title parts := by
  induction parts with
  | nil => cases hp
  | cons q rest ih =>
      unfold shokoToPlexParts
      rcases List.mem_cons.mp hp with rfl | hq
      · refine List.mem_append_left _ ?_
        rw [if_pos hc]
        exact List.mem_cons_self _ _
      · exact List.mem_append_right _ (ih hq)

theorem shokoToPlexEpisodes_marks (pf : Platform) (ws : List String)
    (account : String) (eps : List PlexEpisode) (ep : PlexEpisode)
    (part : PlexPart) (hep : ep ∈ eps) (hp : part ∈ ep.parts)
    (hc : ws.contains (basename pf part.file) = true) :
    Event.plexMarkWatched account ep.title true ∈
      shokoToPlexEpisodes pf ws account eps := by
  induction eps with
  | nil => cases hep
  | cons e0 rest ih =>
      unfold shokoToPlexEpisodes
      rcases List.mem_cons.mp hep with rfl | he
      · exact List.mem_append_left _
          (shokoToPlexParts_marks pf ws account ep.title ep.parts part hp hc)
      · exact List.mem_append_right _ (ih he)

/-- C6: in import mode, the watched-filename set is computed by the one
Shoko watched-episode query issued before (and independently of) the
account loop — the query event occurs exactly once, at the head of the
run trace, and the same precomputed set is what every identity's loop
receives; the set is the bare basename of each watched record's first
file's first location; and within any confirmed identity's library scan,
every unwatched episode one of whose part basenames is in the set is
marked watched=true. -/
theorem import_watched_set_once_and_membership (pf : Platform)
    (shokoW : List ShokoEpisodeRec) (libs : List String)
    (accounts : List (String × (String → Option PlexLibrary)))
    (inputs : List String) :
    runShokoImport pf shokoW libs accounts inputs =
      Event.shokoGetWatchedList ::
        shokoToPlexAccounts pf (watchedFilenames pf shokoW) libs accounts inputs ∧
    Event.shokoGetWatchedList ∉
      shokoToPlexAccounts pf (watchedFilenames pf shokoW) libs accounts inputs ∧
    watchedFilenames pf shokoW = shokoW.map (fun r =>
      basename pf ((r.Files.headD ⟨[]⟩).Locations.headD ⟨""⟩).RelativePath) ∧
    (∀ (ws : List String) (account : String) (eps : List PlexEpisode)
        (ep : PlexEpisode) (part : PlexPart), ep ∈ eps → part ∈ ep.parts →
        ws.contains (basename pf part.file) = true →
        Event.plexMarkWatched account ep.title true ∈
          shokoToPlexEpisodes pf ws account eps) := by
  refine ⟨rfl, ?_, rfl, ?_⟩
  · intro h
    rcases shokoToPlexAccounts_scoped pf (watchedFilenames pf shokoW) libs
      accounts inputs Event.shokoGetWatchedList h with ⟨p, _, hsc⟩
    rcases hsc with h1 | h1 | ⟨ln, h1⟩ | ⟨t, h1⟩ | ⟨fp, h1⟩ <;> simp at h1
  · intro ws account eps ep part hep hp hc
    exact shokoToPlexEpisodes_marks pf ws account eps ep part hep hp hc

/-- Witness for `import_watched_set_once_and_membership`: a concrete
unwatched episode whose basename is in the set is marked. -/
theorem import_watched_set_once_and_membership_witness :
    Event.plexMarkWatched "u" "A" true ∈
      shokoToPlexEpisodes Platform.posix ["a.mkv"] "u"
        [{ title := "A", parts := [{ file := "/x/a.mkv" }] }] :=
  (import_watched_set_once_and_membership Platform.posix [] [] [] []).2.2.2
    ["a.mkv"] "u" [{ title := "A", parts := [{ file := "/x/a.mkv" }] }]
    { title := "A", parts := [{ file := "/x/a.mkv" }] }
    { file := "/x/a.mkv" } (by decide) (by decide) (by decide)

/-! ### C1: monotonicity of the watched flag -/

theorem accountScopedEvent_mut {name : String} {e : Event}
    (h : accountScopedEvent name e) : mutatedValue e ≠ some false := by
  rcases h with rfl | rfl | ⟨ln, rfl⟩ | ⟨t, rfl⟩ | ⟨fp, rfl⟩ <;> simp [mutatedValue]

theorem exportEvent_mut {e : Event} (h : exportEvent e) :
    mutatedValue e ≠ some false := by
  rcases h with ⟨fp, rfl⟩ | ⟨fp, t, rfl⟩ | ⟨i, rfl⟩ | ⟨a, ln, rfl⟩ <;>
    simp [mutatedValue]

/-- C1: monotonicity of the watched flag.  In every run — either mode,
any configuration, any service data, any input stream — every
state-mutation event the engine issues writes watched=true (Plex
`markPlayed` in import mode, the Shoko `Watched/true` POST in export
mode); no event ever writes watched=false. -/
theorem watched_flag_monotonic (arg : Option String) (env : Env) :
    ∀ e ∈ (program arg env).2, mutatedValue e ≠ some false := by
  intro e he
  rcases hp : parseArgs arg with msg | ⟨rd, imp⟩
  · have hz : (program arg env).2 = [] := by simp [program, hp]
    rw [hz] at he
    cases he
  · have ht : (program arg env).2 =
        (if (resolveAccounts env.syncAdmin env.extraUsers env.userLookup
              env.switchToken env.admin).2 then [Event.resolveFailed] else []) ++
          (if imp then
            runShokoImport env.platform env.shokoWatched env.libraryNames
              ((resolveAccounts env.syncAdmin env.extraUsers env.userLookup
                env.switchToken env.admin).1.map fun a => (a, env.sections a))
              env.inputs
          else
            runPlexExport env.platform env.shoko env.libraryNames
              ((resolveAccounts env.syncAdmin env.extraUsers env.userLookup
                env.switchToken env.admin).1.map fun a => (a, env.sections a))) := by
      simp [program, hp]
    rw [ht] at he
    rcases List.mem_append.mp he with he | he
    · by_cases hb : (resolveAccounts env.syncAdmin env.extraUsers env.userLookup
          env.switchToken env.admin).2 = true
      · rw [if_pos hb] at he
        rcases List.mem_singleton.mp he with rfl
        simp [mutatedValue]
      · rw [if_neg hb] at he
        cases he
    · cases imp
      · rw [if_neg (by simp)] at he
        exact exportEvent_mut (plexToShokoAccounts_shape env.platform env.shoko
          env.libraryNames _ e he)
      · rw [if_pos rfl] at he
        rcases List.mem_cons.mp he with rfl | he
        · simp [mutatedValue]
        · rcases shokoToPlexAccounts_scoped env.platform _ env.libraryNames _
            env.inputs e he with ⟨p, _, hsc⟩
          exact accountScopedEvent_mut hsc

/-- Witness for `watched_flag_monotonic`: a concrete export run that
issues the mutation `shokoSetWatched 7 true`, which indeed does not
write false. -/
theorem watched_flag_monotonic_witness :
    mutatedValue (Event.shokoSetWatched 7 true) ≠ some false :=
  watched_flag_monotonic none
    { admin := "admin", syncAdmin := true, extraUsers := none,
      libraryNames := ["L"], userLookup := fun _ => none,
      switchToken := fun _ => none,
      sections := fun _ _ => some { watchedEpisodes := [{ title := "A", parts := [{ file := "/x/a.mkv" }] }], unwatchedEpisodes := [] },
      shoko := fun _ => [{ Watched := TriState.wNone, SeriesIDs := [{ EpisodeIDs := [{ ID := 7 }] }] }],
      shokoWatched := [], inputs := [], platform := Platform.posix }
    (Event.shokoSetWatched 7 true) (by decide)

/-- Witness for `cli_arg_acceptance`: the argument `bogus` is rejected
before anything runs — exit status 2, empty trace. -/
theorem cli_arg_acceptance_witness :
    program (some "bogus")
      { admin := "a", syncAdmin := true, extraUsers := none,
        libraryNames := [], userLookup := fun _ => none,
        switchToken := fun _ => none, sections := fun _ _ => none,
        shoko := fun _ => [], shokoWatched := [], inputs := [],
        platform := Platform.posix } = (2, []) :=
  ((cli_arg_acceptance "bogus").2.2
    { admin := "a", syncAdmin := true, extraUsers := none,
      libraryNames := [], userLookup := fun _ => none,
      switchToken := fun _ => none, sections := fun _ _ => none,
      shoko := fun _ => [], shokoWatched := [], inputs := [],
      platform := Platform.posix }
    (by
      intro v h
      rw [show parseArgs (some "bogus") =
        Except.error "invalid range or import" from rfl] at h
      exact Except.noConfusion h)).1
